import Mathlib

/-!
Shallow embedding of the Krita cell-based-selection plugin
(`pykrita/cellsel/cellsel.py`).

Numeric conventions:
* Qt `qreal` arithmetic is embedded in `ℚ` (exact rationals).
* Python `int(...)` on a float is truncation toward zero (`qtrunc`).
* Python `//` on integers is floor division (`Int.fdiv`).
* A selection mask is a total pixel-value function `ℤ → ℤ → ℕ`
  (0 = unselected, 255 = fully selected).
* `QTransform.rotate(angle)` is embedded by passing the cosine and sine of
  the angle as rational parameters `c`, `s`; theorems that need the
  trigonometric identity take `c ^ 2 + s ^ 2 = 1` as a hypothesis.
-/

namespace CellSel

/-- Python `int()` applied to a rational: truncation toward zero. -/
def qtrunc (x : ℚ) : ℤ := if 0 ≤ x then ⌊x⌋ else ⌈x⌉

/-- Qt affine transform in the row-vector convention used by `QTransform`:
`map (x, y) = (m11*x + m21*y + dx, m12*x + m22*y + dy)`. -/
structure QT where
  m11 : ℚ
  m12 : ℚ
  m21 : ℚ
  m22 : ℚ
  dx : ℚ
  dy : ℚ
deriving DecidableEq, Repr

/-- Embeds `QTransform()`: the identity transform. -/
def QT.ident : QT := ⟨1, 0, 0, 1, 0, 0⟩

/-- Embeds `QTransform.map(p)` for an affine transform. -/
def QT.map (t : QT) (p : ℚ × ℚ) : ℚ × ℚ :=
  (t.m11 * p.1 + t.m21 * p.2 + t.dx, t.m12 * p.1 + t.m22 * p.2 + t.dy)

/-- Embeds `QTransform.translate(tx, ty)` (Qt source, affine case):
the translation acts on the input point before the old transform. -/
def QT.translate (t : QT) (tx ty : ℚ) : QT :=
  { t with dx := t.dx + tx * t.m11 + ty * t.m21,
           dy := t.dy + tx * t.m12 + ty * t.m22 }

/-- Embeds `QTransform.rotate(angle)` around the z axis (Qt source, affine case),
parameterised by `c = cos angle`, `s = sin angle`. -/
def QT.rotateCS (t : QT) (c s : ℚ) : QT :=
  { t with m11 := c * t.m11 + s * t.m21,
           m12 := c * t.m12 + s * t.m22,
           m21 := -s * t.m11 + c * t.m21,
           m22 := -s * t.m12 + c * t.m22 }

/-- Embeds `QTransform.scale(sx, sy)` (Qt source, affine case). -/
def QT.scale (t : QT) (sx sy : ℚ) : QT :=
  { t with m11 := sx * t.m11, m12 := sx * t.m12,
           m21 := sy * t.m21, m22 := sy * t.m22 }

/-- Determinant of the linear part of an affine `QTransform`. -/
def QT.det (t : QT) : ℚ := t.m11 * t.m22 - t.m12 * t.m21

/-- Embeds `QTransform.inverted()`: returns the inverse and an invertibility flag;
on a singular transform Qt returns the identity and `false`. -/
def QT.inverted (t : QT) : QT × Bool :=
  if t.det = 0 then (QT.ident, false)
  else ({ m11 := t.m22 / t.det, m12 := -t.m12 / t.det,
          m21 := -t.m21 / t.det, m22 := t.m11 / t.det,
          dx := (t.m21 * t.dy - t.m22 * t.dx) / t.det,
          dy := (t.m12 * t.dx - t.m11 * t.dy) / t.det }, true)

/-- The host view state read by `get_transform` and `pos_to_grid` on every
event: zoom level, document resolution, canvas rotation (as cosine/sine),
the two scrollbars' (min, max, value) triples, and the overlay widget's
rect center. -/
structure ViewEnv where
  zoomLevel : ℚ
  resolution : ℚ
  rotC : ℚ
  rotS : ℚ
  hMin : ℚ
  hMax : ℚ
  hVal : ℚ
  vMin : ℚ
  vMax : ℚ
  vVal : ℚ
  centerX : ℚ
  centerY : ℚ

/-- Embeds `_offset(scroller)` inside `get_transform`:
`-(value - (minimum + maximum) / 2.0)`. -/
def scrollOffset (mn mx v : ℚ) : ℚ := -(v - (mn + mx) / 2)

/-- Embeds `zoom = (canvas.zoomLevel() * 72.0) / document.resolution()`. -/
def zoomFactor (env : ViewEnv) : ℚ := env.zoomLevel * 72 / env.resolution

/-- Embeds `get_transform(view)`: translate by the scrollbar offsets, rotate by the
canvas rotation, scale uniformly by the zoom factor. -/
def get_transform (env : ViewEnv) : QT :=
  ((QT.ident.translate (scrollOffset env.hMin env.hMax env.hVal)
      (scrollOffset env.vMin env.vMax env.vVal)).rotateCS env.rotC
        env.rotS).scale (zoomFactor env) (zoomFactor env)

/-- A selection mask: per-pixel selection value. -/
abbrev Mask := ℤ → ℤ → ℕ

/-- A fresh `Selection()`: everything unselected. -/
def Mask.empty : Mask := fun _ _ => 0

/-- Embeds `Selection.select(x, y, w, h, value)`: set the rectangle
`[x, x+w) × [y, y+h)` to `value`. -/
def Mask.select (m : Mask) (x y w h : ℤ) (v : ℕ) : Mask :=
  fun px py =>
    if x ≤ px ∧ px < x + w ∧ y ≤ py ∧ py < y + h then v else m px py

/-- The `MouseInterceptor` state together with the host document state it
reads and writes: cell size (from `__init__`), document extent, the
document's selection (None when the document has no selection yet), and
the drag fields `cur_cell` / `cur_cell_value`. -/
structure InterceptorState where
  cellW : ℤ
  cellH : ℤ
  docW : ℤ
  docH : ℤ
  selection : Option Mask
  curCell : Option (ℤ × ℤ)
  curCellValue : ℕ

/-- The document-coordinate point computed inside `pos_to_grid`:
`transform_inv.map(local_pos - center) + document_center`. -/
def toDocPos (env : ViewEnv) (st : InterceptorState) (pos : ℚ × ℚ) : ℚ × ℚ :=
  let tinv := (get_transform env).inverted.1
  let q := tinv.map (pos.1 - env.centerX, pos.2 - env.centerY)
  (q.1 + (st.docW : ℚ) / 2, q.2 + (st.docH : ℚ) / 2)

/-- Embeds `MouseInterceptor.pos_to_grid(local_pos)`: truncate the transformed
document position to integers, reject out-of-bounds, floor-divide by the
cell size. -/
def pos_to_grid (env : ViewEnv) (st : InterceptorState) (pos : ℚ × ℚ) :
    Option (ℤ × ℤ) :=
  let p := toDocPos env st pos
  let xpos := qtrunc p.1
  let ypos := qtrunc p.2
  if xpos < 0 ∨ ypos < 0 ∨ xpos > st.docW ∨ ypos > st.docH then none
  else some (Int.fdiv xpos st.cellW, Int.fdiv ypos st.cellH)

/-- Embeds `MouseInterceptor.set_cell(cell, newval)`: `newval = none` is the toggle
sentinel (sample the cell's top-left pixel; nonzero resolves to 0, zero to
255); then write the resolved value to the whole cell rectangle and commit
the selection.  Returns the resolved value and the updated state. -/
def set_cell (st : InterceptorState) (cell : ℤ × ℤ) (newvalOpt : Option ℕ) :
    ℕ × InterceptorState :=
  let sel := st.selection.getD Mask.empty
  let newval :=
    match newvalOpt with
    | none => if sel (cell.1 * st.cellW) (cell.2 * st.cellH) ≠ 0 then 0 else 255
    | some v => v
  let selNew := sel.select (cell.1 * st.cellW) (cell.2 * st.cellH)
    st.cellW st.cellH newval
  (newval, { st with selection := some selNew })

/-- Embeds `MouseInterceptor.input_press(pos, mods)`. -/
def input_press (env : ViewEnv) (st : InterceptorState) (pos : ℚ × ℚ) :
    InterceptorState :=
  match pos_to_grid env st pos with
  | none => st
  | some cell =>
      let r := set_cell st cell none
      { r.2 with curCellValue := r.1, curCell := some cell }

/-- Embeds `MouseInterceptor.input_release(pos, mods)`. -/
def input_release (st : InterceptorState) : InterceptorState :=
  { st with curCell := none }

/-- Embeds `MouseInterceptor.input_move(pos, mods)`. -/
def input_move (env : ViewEnv) (st : InterceptorState) (pos : ℚ × ℚ) :
    InterceptorState :=
  match st.curCell with
  | none => st
  | some c0 =>
      match pos_to_grid env st pos with
      | none => st
      | some cell =>
          if cell = c0 then st
          else
            let r := set_cell st cell (some st.curCellValue)
            { r.2 with curCell := some cell }

/-- Qt mouse/tablet button, as far as the handler distinguishes it. -/
inductive MouseButton
  | left
  | other
deriving DecidableEq, Repr

/-- The event kinds `MouseInterceptor.event` dispatches on. -/
inductive QEventKind
  | mouseButtonPress (b : MouseButton)
  | mouseButtonRelease (b : MouseButton)
  | mouseMove
  | tabletPress (b : MouseButton)
  | tabletRelease (b : MouseButton)
  | tabletMove
  | otherEvent
deriving DecidableEq, Repr

/-- Embeds `MouseInterceptor.event(event)`: returns the updated state and
`some b` when the handler returns `b` itself, or `none` when it falls
through to `super().event(event)`. -/
def handleEvent (env : ViewEnv) (st : InterceptorState) (ev : QEventKind)
    (pos : ℚ × ℚ) : InterceptorState × Option Bool :=
  match ev with
  | .mouseButtonPress b =>
      if b = .left then (input_press env st pos, some true) else (st, none)
  | .mouseButtonRelease b =>
      if b = .left then (input_release st, some true) else (st, none)
  | .mouseMove => (input_move env st pos, some false)
  | .tabletPress b =>
      if b = .left then (input_press env st pos, some true) else (st, none)
  | .tabletRelease b =>
      if b = .left then (input_release st, some true) else (st, none)
  | .tabletMove => (input_move env st pos, some true)
  | .otherEvent => (st, none)

/-- A host docker as seen by `get_grid_settings`: its runtime class name and
the values of the `intHSpacing` / `intVSpacing` spin boxes when present. -/
structure Docker where
  className : String
  hSpacing : Option ℤ
  vSpacing : Option ℤ

/-- Embeds `get_grid_settings(krita)`: scan the dockers for a `GridDockerDock`
whose two spacing spin boxes exist; fall back to `(32, 32)`. -/
def get_grid_settings : List Docker → ℤ × ℤ
  | [] => (32, 32)
  | d :: rest =>
      if d.className = "GridDockerDock" then
        match d.hSpacing, d.vSpacing with
        | some h, some v => (h, v)
        | _, _ => get_grid_settings rest
      else get_grid_settings rest

/-- Session start (`MyExtension.handleAction` + `MouseInterceptor.__init__`):
the cell size is read once from `get_grid_settings` and stored; `cur_cell`
starts as None and `cur_cell_value` as 0. -/
def mkInterceptor (dockers : List Docker) (docW docH : ℤ)
    (sel : Option Mask) : InterceptorState :=
  let cs := get_grid_settings dockers
  { cellW := cs.1, cellH := cs.2, docW := docW, docH := docH,
    selection := sel, curCell := none, curCellValue := 0 }

/-! ### Helper lemmas -/

theorem qtrunc_of_nonneg {x : ℚ} (hx : 0 ≤ x) : qtrunc x = ⌊x⌋ := by
  simp [qtrunc, hx]

theorem qtrunc_intCast (n : ℤ) : qtrunc (n : ℚ) = n := by
  unfold qtrunc
  split <;> simp

/-- Flooring a rational and then floor-dividing by a positive integer
equals flooring the rational quotient. -/
theorem fdiv_floor_eq (x : ℚ) (w : ℤ) (hw : 0 < w) :
    Int.fdiv ⌊x⌋ w = ⌊x / (w : ℚ)⌋ := by
  have hwQ : (0 : ℚ) < (w : ℚ) := by exact_mod_cast hw
  have h1 : Int.fdiv ⌊x⌋ w = ⌊x⌋ / w := Int.fdiv_eq_ediv _ hw.le
  have h2 : ⌊x⌋ / w = ⌊((⌊x⌋ : ℚ)) / (w : ℚ)⌋ := by
    have hnat : ((w.toNat : ℤ)) = w := Int.toNat_of_nonneg hw.le
    have := Rat.floor_intCast_div_natCast ⌊x⌋ w.toNat
    rw [show ((w.toNat : ℚ)) = (w : ℚ) by exact_mod_cast congrArg (fun z : ℤ => (z : ℚ)) hnat,
        hnat] at this
    exact this.symm
  have h3 : ⌊((⌊x⌋ : ℚ)) / (w : ℚ)⌋ = ⌊x / (w : ℚ)⌋ := by
    have key : ∀ k : ℤ, k ≤ ⌊((⌊x⌋ : ℚ)) / (w : ℚ)⌋ ↔ k ≤ ⌊x / (w : ℚ)⌋ := by
      intro k
      rw [Int.le_floor, Int.le_floor, le_div_iff₀ hwQ, le_div_iff₀ hwQ]
      constructor
      · intro h
        exact h.trans (Int.floor_le x)
      · intro h
        have hk : (k * w : ℤ) ≤ ⌊x⌋ := Int.le_floor.mpr (by push_cast; exact h)
        exact_mod_cast hk
    exact le_antisymm ((key _).mp le_rfl) ((key _).mpr le_rfl)
  rw [h1, h2, h3]

/-! ### Claims -/

/-- C1: for positive cell sizes and a pointer position whose transformed
document coordinates lie within the document bounds, `pos_to_grid` returns
`(⌊x / cell_w⌋, ⌊y / cell_h⌋)`, which is also the truncation of the
transformed coordinates toward zero followed by floor division. -/
theorem C1_pos_to_grid_floor (env : ViewEnv) (st : InterceptorState)
    (pos : ℚ × ℚ) (hw : 0 < st.cellW) (hh : 0 < st.cellH)
    (hx0 : 0 ≤ (toDocPos env st pos).1)
    (hx1 : (toDocPos env st pos).1 ≤ (st.docW : ℚ))
    (hy0 : 0 ≤ (toDocPos env st pos).2)
    (hy1 : (toDocPos env st pos).2 ≤ (st.docH : ℚ)) :
    pos_to_grid env st pos =
      some (⌊(toDocPos env st pos).1 / (st.cellW : ℚ)⌋,
            ⌊(toDocPos env st pos).2 / (st.cellH : ℚ)⌋) ∧
    pos_to_grid env st pos =
      some (Int.fdiv (qtrunc (toDocPos env st pos).1) st.cellW,
            Int.fdiv (qtrunc (toDocPos env st pos).2) st.cellH) := by
  have hxf0 : 0 ≤ ⌊(toDocPos env st pos).1⌋ := Int.floor_nonneg.mpr hx0
  have hyf0 : 0 ≤ ⌊(toDocPos env st pos).2⌋ := Int.floor_nonneg.mpr hy0
  have hxf1 : ⌊(toDocPos env st pos).1⌋ ≤ st.docW :=
    (Int.floor_mono hx1).trans_eq (Int.floor_intCast _)
  have hyf1 : ⌊(toDocPos env st pos).2⌋ ≤ st.docH :=
    (Int.floor_mono hy1).trans_eq (Int.floor_intCast _)
  have hcond : ¬(qtrunc (toDocPos env st pos).1 < 0 ∨
      qtrunc (toDocPos env st pos).2 < 0 ∨
      qtrunc (toDocPos env st pos).1 > st.docW ∨
      qtrunc (toDocPos env st pos).2 > st.docH) := by
    rw [qtrunc_of_nonneg hx0, qtrunc_of_nonneg hy0]
    omega
  constructor
  · simp only [pos_to_grid]
    rw [if_neg hcond]
    rw [qtrunc_of_nonneg hx0, qtrunc_of_nonneg hy0,
        fdiv_floor_eq _ _ hw, fdiv_floor_eq _ _ hh]
  · simp only [pos_to_grid]
    rw [if_neg hcond]

/-- C3: `pos_to_grid` rejects a position exactly when its truncated
document coordinates fall outside `[0, docW] × [0, docH]`; in particular a
coordinate exactly at the document extent yields a valid cell, and one
unit beyond is rejected. -/
theorem C3_out_of_bounds (env : ViewEnv) (st : InterceptorState)
    (pos : ℚ × ℚ) (xi yi : ℤ) (hdW : 0 ≤ st.docW) (hdH : 0 ≤ st.docH)
    (h : toDocPos env st pos = ((xi : ℚ), (yi : ℚ))) :
    (pos_to_grid env st pos = none ↔
      ¬(0 ≤ xi ∧ xi ≤ st.docW ∧ 0 ≤ yi ∧ yi ≤ st.docH)) ∧
    (xi = st.docW ∧ yi = st.docH → (pos_to_grid env st pos).isSome) ∧
    (xi = st.docW + 1 → pos_to_grid env st pos = none) := by
  have hx : qtrunc (toDocPos env st pos).1 = xi := by rw [h]; exact qtrunc_intCast xi
  have hy : qtrunc (toDocPos env st pos).2 = yi := by rw [h]; exact qtrunc_intCast yi
  refine ⟨?_, ?_, ?_⟩
  · simp only [pos_to_grid, hx, hy]
    by_cases hc : xi < 0 ∨ yi < 0 ∨ xi > st.docW ∨ yi > st.docH
    · rw [if_pos hc]
      simp only [true_iff]
      omega
    · rw [if_neg hc]
      simp only [reduceCtorEq, false_iff, not_not]
      omega
  · intro hb
    simp only [pos_to_grid, hx, hy]
    rw [if_neg (by omega)]
    rfl
  · intro hb
    simp only [pos_to_grid, hx, hy]
    rw [if_pos (by omega)]

/-! ### Concrete fixtures (identity-like view state for witnesses) -/

/-- A view state whose transform is the identity: zoom level 1 at 72 DPI,
no rotation, centred scrollbars, overlay center at the origin. -/
def envId : ViewEnv :=
  { zoomLevel := 1, resolution := 72, rotC := 1, rotS := 0,
    hMin := 0, hMax := 0, hVal := 0, vMin := 0, vMax := 0, vVal := 0,
    centerX := 0, centerY := 0 }

/-- A 4×4 document with 2×2 cells and no selection yet. -/
def stBase : InterceptorState :=
  { cellW := 2, cellH := 2, docW := 4, docH := 4,
    selection := none, curCell := none, curCellValue := 0 }

theorem toDocPos_envId (st : InterceptorState) (p : ℚ × ℚ) :
    toDocPos envId st p =
      (p.1 + (st.docW : ℚ) / 2, p.2 + (st.docH : ℚ) / 2) := by
  norm_num [toDocPos, envId, get_transform, QT.inverted, QT.map,
    QT.ident, QT.translate, QT.rotateCS, QT.scale, QT.det, scrollOffset,
    zoomFactor]

/-- Evaluation rule for `pos_to_grid` when the transformed position has
integer coordinates. -/
theorem pos_to_grid_eval (env : ViewEnv) (st : InterceptorState)
    (pos : ℚ × ℚ) (xi yi : ℤ)
    (h : toDocPos env st pos = ((xi : ℚ), (yi : ℚ))) :
    pos_to_grid env st pos =
      if xi < 0 ∨ yi < 0 ∨ xi > st.docW ∨ yi > st.docH then none
      else some (Int.fdiv xi st.cellW, Int.fdiv yi st.cellH) := by
  simp only [pos_to_grid, h, qtrunc_intCast]

theorem C1_pos_to_grid_floor_witness :
    (0 < stBase.cellW ∧ 0 < stBase.cellH ∧
      0 ≤ (toDocPos envId stBase (-1, -1)).1 ∧
      (toDocPos envId stBase (-1, -1)).1 ≤ (stBase.docW : ℚ) ∧
      0 ≤ (toDocPos envId stBase (-1, -1)).2 ∧
      (toDocPos envId stBase (-1, -1)).2 ≤ (stBase.docH : ℚ)) ∧
    pos_to_grid envId stBase (-1, -1) =
      some (⌊(toDocPos envId stBase (-1, -1)).1 / (stBase.cellW : ℚ)⌋,
            ⌊(toDocPos envId stBase (-1, -1)).2 / (stBase.cellH : ℚ)⌋) := by
  have hw : (0 : ℤ) < stBase.cellW := by norm_num [stBase]
  have hh : (0 : ℤ) < stBase.cellH := by norm_num [stBase]
  have hx0 : 0 ≤ (toDocPos envId stBase (-1, -1)).1 := by
    rw [toDocPos_envId]; norm_num [stBase]
  have hx1 : (toDocPos envId stBase (-1, -1)).1 ≤ (stBase.docW : ℚ) := by
    rw [toDocPos_envId]; norm_num [stBase]
  have hy0 : 0 ≤ (toDocPos envId stBase (-1, -1)).2 := by
    rw [toDocPos_envId]; norm_num [stBase]
  have hy1 : (toDocPos envId stBase (-1, -1)).2 ≤ (stBase.docH : ℚ) := by
    rw [toDocPos_envId]; norm_num [stBase]
  exact ⟨⟨hw, hh, hx0, hx1, hy0, hy1⟩,
    (C1_pos_to_grid_floor envId stBase (-1, -1) hw hh hx0 hx1 hy0 hy1).1⟩

theorem C3_out_of_bounds_witness :
    (0 ≤ stBase.docW ∧ 0 ≤ stBase.docH ∧
      toDocPos envId stBase (1, 1) = (((3 : ℤ) : ℚ), ((3 : ℤ) : ℚ))) ∧
    (pos_to_grid envId stBase (1, 1) = none ↔
      ¬(0 ≤ (3 : ℤ) ∧ (3 : ℤ) ≤ stBase.docW ∧ 0 ≤ (3 : ℤ) ∧
        (3 : ℤ) ≤ stBase.docH)) := by
  have hdW : (0 : ℤ) ≤ stBase.docW := by norm_num [stBase]
  have hdH : (0 : ℤ) ≤ stBase.docH := by norm_num [stBase]
  have h : toDocPos envId stBase (1, 1) = (((3 : ℤ) : ℚ), ((3 : ℤ) : ℚ)) := by
    rw [toDocPos_envId]; norm_num [stBase]
  exact ⟨⟨hdW, hdH, h⟩,
    (C3_out_of_bounds envId stBase (1, 1) 3 3 hdW hdH h).1⟩

/-! ### Point operations used to state the composition order (C6) -/

/-- Translate a point. -/
def translateP (d p : ℚ × ℚ) : ℚ × ℚ := (p.1 + d.1, p.2 + d.2)

/-- Rotate a point about the origin; `c`, `s` stand for the cosine and sine
of the angle. -/
def rotateP (c s : ℚ) (p : ℚ × ℚ) : ℚ × ℚ :=
  (c * p.1 - s * p.2, s * p.1 + c * p.2)

/-- Scale a point uniformly. -/
def scaleP (k : ℚ) (p : ℚ × ℚ) : ℚ × ℚ := (k * p.1, k * p.2)

/-- C6: `get_transform` is built by the Qt calls translate, rotate, scale in
exactly that order, with the scrollbar-offset translation, the canvas
rotation, and the uniform `zoom × 72 / resolution` scale; the transform it
returns is the composite that applies the translation outermost (Qt/painter
composition order: first-composed acts last on the point). -/
theorem C6_transform_composition (env : ViewEnv) (p : ℚ × ℚ) :
    get_transform env =
      ((QT.ident.translate (scrollOffset env.hMin env.hMax env.hVal)
          (scrollOffset env.vMin env.vMax env.vVal)).rotateCS env.rotC
            env.rotS).scale (zoomFactor env) (zoomFactor env) ∧
    (get_transform env).map p =
      translateP (scrollOffset env.hMin env.hMax env.hVal,
          scrollOffset env.vMin env.vMax env.vVal)
        (rotateP env.rotC env.rotS (scaleP (zoomFactor env) p)) := by
  refine ⟨rfl, ?_⟩
  simp only [get_transform, QT.ident, QT.translate, QT.rotateCS, QT.scale,
    QT.map, translateP, rotateP, scaleP]
  refine Prod.ext ?_ ?_ <;> (simp only []; ring)

/-- Applying an affine transform with nonzero determinant and then its
Qt inverse is the identity. -/
theorem QT.roundtrip (t : QT) (h : t.det ≠ 0) (p : ℚ × ℚ) :
    t.inverted.1.map (t.map p) = p := by
  have hd : t.m11 * t.m22 - t.m12 * t.m21 ≠ 0 := h
  simp only [QT.inverted, QT.det]
  rw [if_neg hd]
  simp only [QT.map]
  refine Prod.ext ?_ ?_ <;> (field_simp; ring)

/-- C7: for every transform built by `get_transform` (rotation given by a
cosine/sine pair on the unit circle, nonzero zoom factor) and every point,
mapping through the transform and then its inverse returns the point
exactly. -/
theorem C7_roundtrip (env : ViewEnv) (p : ℚ × ℚ)
    (hcs : env.rotC ^ 2 + env.rotS ^ 2 = 1) (hz : zoomFactor env ≠ 0) :
    (get_transform env).inverted.1.map ((get_transform env).map p) = p := by
  apply QT.roundtrip
  have hdet : (get_transform env).det = zoomFactor env ^ 2 := by
    simp only [get_transform, QT.det, QT.ident, QT.translate, QT.rotateCS,
      QT.scale]
    linear_combination (zoomFactor env ^ 2) * hcs
  rw [hdet]
  exact pow_ne_zero 2 hz

theorem C7_roundtrip_witness :
    (envId.rotC ^ 2 + envId.rotS ^ 2 = 1 ∧ zoomFactor envId ≠ 0) ∧
    (get_transform envId).inverted.1.map
      ((get_transform envId).map (5, 7)) = (5, 7) := by
  have hcs : envId.rotC ^ 2 + envId.rotS ^ 2 = 1 := by norm_num [envId]
  have hz : zoomFactor envId ≠ 0 := by norm_num [zoomFactor, envId]
  exact ⟨⟨hcs, hz⟩, C7_roundtrip envId (5, 7) hcs hz⟩

/-! ### Selection mutator (C2, C5) -/

theorem Mask.select_apply (m : Mask) (x y w h : ℤ) (v : ℕ) (px py : ℤ) :
    Mask.select m x y w h v px py =
      if x ≤ px ∧ px < x + w ∧ y ≤ py ∧ py < y + h then v else m px py := rfl

theorem Mask.select_topLeft (m : Mask) (x y w h : ℤ) (v : ℕ)
    (hw : 0 < w) (hh : 0 < h) : Mask.select m x y w h v x y = v := by
  rw [Mask.select_apply,
    if_pos ⟨le_rfl, lt_add_of_pos_right _ hw, le_rfl, lt_add_of_pos_right _ hh⟩]

/-- C2: with the toggle sentinel, `set_cell` resolves 0 when the sampled
top-left pixel of the cell is nonzero and 255 otherwise, writes the
resolved value to the whole `cell_w × cell_h` rectangle anchored at the
cell's top-left document coordinate, returns 0 or 255, and its resolved
value depends only on that single sampled pixel. -/
theorem C2_set_cell_toggle (st st2 : InterceptorState) (cell : ℤ × ℤ)
    (hW : st2.cellW = st.cellW) (hH : st2.cellH = st.cellH)
    (hS : (st2.selection.getD Mask.empty) (cell.1 * st.cellW)
            (cell.2 * st.cellH) =
          (st.selection.getD Mask.empty) (cell.1 * st.cellW)
            (cell.2 * st.cellH)) :
    ((set_cell st cell none).1 =
      if (st.selection.getD Mask.empty) (cell.1 * st.cellW)
          (cell.2 * st.cellH) ≠ 0 then 0 else 255) ∧
    ((set_cell st cell none).2.selection =
      some ((st.selection.getD Mask.empty).select (cell.1 * st.cellW)
        (cell.2 * st.cellH) st.cellW st.cellH (set_cell st cell none).1)) ∧
    ((set_cell st cell none).1 = 0 ∨ (set_cell st cell none).1 = 255) ∧
    ((set_cell st2 cell none).1 = (set_cell st cell none).1) := by
  refine ⟨rfl, rfl, ?_, ?_⟩
  · show (if (st.selection.getD Mask.empty) (cell.1 * st.cellW)
        (cell.2 * st.cellH) ≠ 0 then 0 else 255) = 0 ∨
      (if (st.selection.getD Mask.empty) (cell.1 * st.cellW)
        (cell.2 * st.cellH) ≠ 0 then 0 else 255) = 255
    split
    · exact Or.inl rfl
    · exact Or.inr rfl
  · show (if (st2.selection.getD Mask.empty) (cell.1 * st2.cellW)
        (cell.2 * st2.cellH) ≠ 0 then 0 else 255) =
      (if (st.selection.getD Mask.empty) (cell.1 * st.cellW)
        (cell.2 * st.cellH) ≠ 0 then 0 else 255)
    rw [hW, hH, hS]

theorem C2_set_cell_toggle_witness :
    (stBase.cellW = stBase.cellW ∧ stBase.cellH = stBase.cellH ∧
      ((stBase.selection.getD Mask.empty) 0 0 =
        (stBase.selection.getD Mask.empty) 0 0)) ∧
    ((set_cell stBase (0, 0) none).1 = 0 ∨
      (set_cell stBase (0, 0) none).1 = 255) := by
  refine ⟨⟨rfl, rfl, rfl⟩, ?_⟩
  have h := C2_set_cell_toggle stBase stBase (0, 0) rfl rfl rfl
  exact h.2.2.1

/-- A selection mask whose cell (0,0) holds an intermediate value 17 at its
top-left pixel. -/
def maskC : Mask := fun px py => if px = 0 ∧ py = 0 then 17 else 0

/-- A selection mask whose cell (0,0) is non-uniform: pixel (1,0) is 255,
the rest 0. -/
def maskD : Mask := fun px py => if px = 1 ∧ py = 0 then 255 else 0

/-- State `stBase` with selection `maskC`. -/
def stC : InterceptorState := { stBase with selection := some maskC }

/-- State `stBase` with selection `maskD`. -/
def stD : InterceptorState := { stBase with selection := some maskD }

/-- C5 counterexample: toggling cell (0,0) twice does not restore the prior
selection when the cell held an intermediate value (17 becomes 255) or was
non-uniform (a 255 pixel away from the sampled corner becomes 0). -/
theorem C5_counterexample :
    (((set_cell (set_cell stC (0, 0) none).2 (0, 0) none).2.selection.getD
        Mask.empty) 0 0 ≠ (stC.selection.getD Mask.empty) 0 0) ∧
    (((set_cell (set_cell stD (0, 0) none).2 (0, 0) none).2.selection.getD
        Mask.empty) 1 0 ≠ (stD.selection.getD Mask.empty) 1 0) := by
  constructor <;> decide

/-- C5 (amended): toggling the same cell twice in succession restores the
prior selection mask provided the cell's pixels were uniformly 0 or
uniformly 255. -/
theorem C5_double_toggle_restores (st : InterceptorState) (cell : ℤ × ℤ)
    (c : ℕ) (px py : ℤ) (hc : c = 0 ∨ c = 255)
    (hw : 0 < st.cellW) (hh : 0 < st.cellH)
    (huni : ∀ qx qy : ℤ, cell.1 * st.cellW ≤ qx →
      qx < cell.1 * st.cellW + st.cellW → cell.2 * st.cellH ≤ qy →
      qy < cell.2 * st.cellH + st.cellH →
      (st.selection.getD Mask.empty) qx qy = c) :
    ((set_cell (set_cell st cell none).2 cell none).2.selection.getD
        Mask.empty) px py = (st.selection.getD Mask.empty) px py := by
  have hs1 : (st.selection.getD Mask.empty) (cell.1 * st.cellW)
      (cell.2 * st.cellH) = c :=
    huni _ _ le_rfl (lt_add_of_pos_right _ hw) le_rfl
      (lt_add_of_pos_right _ hh)
  have hv1 : (set_cell st cell none).1 = if c ≠ 0 then 0 else 255 := by
    show (if (st.selection.getD Mask.empty) (cell.1 * st.cellW)
        (cell.2 * st.cellH) ≠ 0 then 0 else 255) = _
    rw [hs1]
  have hv2 : (set_cell (set_cell st cell none).2 cell none).1 = c := by
    show (if ((st.selection.getD Mask.empty).select (cell.1 * st.cellW)
        (cell.2 * st.cellH) st.cellW st.cellH
        (set_cell st cell none).1) (cell.1 * st.cellW)
        (cell.2 * st.cellH) ≠ 0 then 0 else 255) = c
    rw [Mask.select_topLeft _ _ _ _ _ _ hw hh, hv1]
    rcases hc with rfl | rfl <;> simp
  show ((st.selection.getD Mask.empty).select (cell.1 * st.cellW)
      (cell.2 * st.cellH) st.cellW st.cellH
      (set_cell st cell none).1).select (cell.1 * st.cellW)
      (cell.2 * st.cellH) st.cellW st.cellH
      (set_cell (set_cell st cell none).2 cell none).1 px py = _
  rw [hv2, Mask.select_apply]
  by_cases hin : cell.1 * st.cellW ≤ px ∧ px < cell.1 * st.cellW + st.cellW ∧
      cell.2 * st.cellH ≤ py ∧ py < cell.2 * st.cellH + st.cellH
  · rw [if_pos hin]
    exact (huni px py hin.1 hin.2.1 hin.2.2.1 hin.2.2.2).symm
  · rw [if_neg hin, Mask.select_apply, if_neg hin]

/-- State `stBase` with a fully selected mask. -/
def stU : InterceptorState :=
  { stBase with selection := some (fun _ _ => 255) }

theorem C5_double_toggle_restores_witness :
    ((set_cell (set_cell stU (0, 0) none).2 (0, 0) none).2.selection.getD
        Mask.empty) 1 1 = (stU.selection.getD Mask.empty) 1 1 :=
  C5_double_toggle_restores stU (0, 0) 255 1 1 (Or.inr rfl)
    (by decide) (by decide) (fun _ _ _ _ _ _ => rfl)

/-! ### Drag state machine (C4) -/

/-- C4: an in-bounds press toggles the cell and latches the returned value;
a drag-move onto a new in-bounds cell writes the latched value explicitly
and updates the current cell; a drag-move that is out of bounds or stays on
the current cell changes nothing. -/
theorem C4_drag_propagation (env : ViewEnv) (st : InterceptorState)
    (p1 p2 p3 p4 : ℚ × ℚ) (cellA cellB c0 : ℤ × ℤ)
    (h1 : pos_to_grid env st p1 = some cellA)
    (hst : st.curCell = some c0)
    (h2 : pos_to_grid env st p2 = some cellB) (hne : cellB ≠ c0)
    (h3 : pos_to_grid env st p3 = none)
    (h4 : pos_to_grid env st p4 = some c0) :
    (input_press env st p1 =
      { (set_cell st cellA none).2 with
          curCell := some cellA,
          curCellValue := (set_cell st cellA none).1 }) ∧
    (input_move env st p2 =
      { (set_cell st cellB (some st.curCellValue)).2 with
          curCell := some cellB }) ∧
    (input_move env st p3 = st) ∧
    (input_move env st p4 = st) := by
  refine ⟨?_, ?_, ?_, ?_⟩
  · unfold input_press
    rw [h1]
  · unfold input_move
    rw [hst, h2]
    show (if cellB = c0 then st
      else
        let r := set_cell st cellB (some st.curCellValue)
        { r.2 with curCell := some cellB }) = _
    rw [if_neg hne]
  · unfold input_move
    rw [hst, h3]
  · unfold input_move
    rw [hst, h4]
    show (if c0 = c0 then st
      else
        let r := set_cell st c0 (some st.curCellValue)
        { r.2 with curCell := some c0 }) = st
    rw [if_pos rfl]

/-- State `stBase` mid-drag: current cell (0,0), latched paint value 255. -/
def stDrag : InterceptorState :=
  { stBase with curCell := some (0, 0), curCellValue := 255 }

theorem C4_drag_propagation_witness :
    (pos_to_grid envId stDrag (-2, -2) = some (0, 0) ∧
      stDrag.curCell = some (0, 0) ∧
      pos_to_grid envId stDrag (0, 0) = some (1, 1) ∧
      ((1, 1) : ℤ × ℤ) ≠ (0, 0) ∧
      pos_to_grid envId stDrag (3, 3) = none ∧
      pos_to_grid envId stDrag (-1, -1) = some (0, 0)) ∧
    (input_move envId stDrag (3, 3) = stDrag ∧
      input_move envId stDrag (-1, -1) = stDrag) := by
  have t1 : toDocPos envId stDrag (-2, -2) = (((0 : ℤ) : ℚ), ((0 : ℤ) : ℚ)) := by
    rw [toDocPos_envId]; norm_num [stDrag, stBase]
  have t2 : toDocPos envId stDrag (0, 0) = (((2 : ℤ) : ℚ), ((2 : ℤ) : ℚ)) := by
    rw [toDocPos_envId]; norm_num [stDrag, stBase]
  have t3 : toDocPos envId stDrag (3, 3) = (((5 : ℤ) : ℚ), ((5 : ℤ) : ℚ)) := by
    rw [toDocPos_envId]; norm_num [stDrag, stBase]
  have t4 : toDocPos envId stDrag (-1, -1) = (((1 : ℤ) : ℚ), ((1 : ℤ) : ℚ)) := by
    rw [toDocPos_envId]; norm_num [stDrag, stBase]
  have h1 : pos_to_grid envId stDrag (-2, -2) = some (0, 0) := by
    rw [pos_to_grid_eval envId stDrag _ 0 0 t1]; decide
  have h2 : pos_to_grid envId stDrag (0, 0) = some (1, 1) := by
    rw [pos_to_grid_eval envId stDrag _ 2 2 t2]; decide
  have h3 : pos_to_grid envId stDrag (3, 3) = none := by
    rw [pos_to_grid_eval envId stDrag _ 5 5 t3]; decide
  have h4 : pos_to_grid envId stDrag (-1, -1) = some (0, 0) := by
    rw [pos_to_grid_eval envId stDrag _ 1 1 t4]; decide
  have hmain := C4_drag_propagation envId stDrag (-2, -2) (0, 0) (3, 3)
    (-1, -1) (0, 0) (1, 1) (0, 0) h1 rfl h2 (by decide) h3 h4
  exact ⟨⟨h1, rfl, h2, by decide, h3, h4⟩, hmain.2.2.1, hmain.2.2.2⟩

/-! ### Event consumption policy (C8) -/

/-- C8: the handler reports mouse moves as not consumed, tablet moves and
left-button mouse/tablet presses and releases as consumed; while Idle
(no current cell), neither kind of move changes the state. -/
theorem C8_event_consumption (env : ViewEnv) (st : InterceptorState)
    (p : ℚ × ℚ) (hidle : st.curCell = none) :
    ((handleEvent env st .mouseMove p).2 = some false) ∧
    ((handleEvent env st .tabletMove p).2 = some true) ∧
    ((handleEvent env st (.mouseButtonPress .left) p).2 = some true) ∧
    ((handleEvent env st (.mouseButtonRelease .left) p).2 = some true) ∧
    ((handleEvent env st (.tabletPress .left) p).2 = some true) ∧
    ((handleEvent env st (.tabletRelease .left) p).2 = some true) ∧
    ((handleEvent env st .mouseMove p).1 = st) ∧
    ((handleEvent env st .tabletMove p).1 = st) := by
  refine ⟨rfl, rfl, rfl, rfl, rfl, rfl, ?_, ?_⟩ <;>
    simp only [handleEvent, input_move, hidle]

theorem C8_event_consumption_witness :
    (stBase.curCell = none) ∧
    ((handleEvent envId stBase .mouseMove (0, 0)).2 = some false ∧
      (handleEvent envId stBase .tabletMove (0, 0)).2 = some true ∧
      (handleEvent envId stBase .mouseMove (0, 0)).1 = stBase ∧
      (handleEvent envId stBase .tabletMove (0, 0)).1 = stBase) := by
  have h := C8_event_consumption envId stBase (0, 0) rfl
  exact ⟨rfl, h.1, h.2.1, h.2.2.2.2.2.2.1, h.2.2.2.2.2.2.2⟩

/-! ### Grid settings fallback and session-fixed cell size (C9) -/

theorem get_grid_settings_fallback (dockers : List Docker)
    (h : ∀ d ∈ dockers, d.className ≠ "GridDockerDock" ∨
      d.hSpacing = none ∨ d.vSpacing = none) :
    get_grid_settings dockers = (32, 32) := by
  induction dockers with
  | nil => rfl
  | cons d rest ih =>
      have hd := h d (List.mem_cons_self d rest)
      have hrest : ∀ x ∈ rest, x.className ≠ "GridDockerDock" ∨
          x.hSpacing = none ∨ x.vSpacing = none :=
        fun x hx => h x (List.mem_cons_of_mem d hx)
      unfold get_grid_settings
      by_cases hn : d.className = "GridDockerDock"
      · rw [if_pos hn]
        rcases hd with hname | hh | hv
        · exact absurd hn hname
        · rw [hh]
          exact ih hrest
        · cases hds : d.hSpacing with
          | none => exact ih hrest
          | some hval =>
              rw [hv]
              exact ih hrest
      · rw [if_neg hn]
        exact ih hrest

theorem input_press_cellSize (env : ViewEnv) (st : InterceptorState)
    (pos : ℚ × ℚ) : (input_press env st pos).cellW = st.cellW ∧
      (input_press env st pos).cellH = st.cellH := by
  unfold input_press
  cases h : pos_to_grid env st pos
  · exact ⟨rfl, rfl⟩
  · exact ⟨rfl, rfl⟩

theorem input_move_cases (env : ViewEnv) (st : InterceptorState)
    (pos : ℚ × ℚ) :
    input_move env st pos = st ∨
    ∃ cell, input_move env st pos =
      { (set_cell st cell (some st.curCellValue)).2 with
          curCell := some cell } := by
  unfold input_move
  cases hc : st.curCell with
  | none => exact Or.inl rfl
  | some c0 =>
      cases hp : pos_to_grid env st pos with
      | none => exact Or.inl rfl
      | some cell =>
          by_cases he : cell = c0
          · exact Or.inl (if_pos he)
          · exact Or.inr ⟨cell, if_neg he⟩

theorem input_move_cellSize (env : ViewEnv) (st : InterceptorState)
    (pos : ℚ × ℚ) : (input_move env st pos).cellW = st.cellW ∧
      (input_move env st pos).cellH = st.cellH ∧
      (input_move env st pos).curCellValue = st.curCellValue := by
  rcases input_move_cases env st pos with heq | ⟨cell, heq⟩ <;>
    rw [heq] <;> exact ⟨rfl, rfl, rfl⟩

theorem handleEvent_cellSize (env : ViewEnv) (st : InterceptorState)
    (ev : QEventKind) (pos : ℚ × ℚ) :
    (handleEvent env st ev pos).1.cellW = st.cellW ∧
    (handleEvent env st ev pos).1.cellH = st.cellH := by
  cases ev with
  | mouseButtonPress b =>
      cases b with
      | left => exact input_press_cellSize env st pos
      | other => exact ⟨rfl, rfl⟩
  | mouseButtonRelease b =>
      cases b with
      | left => exact ⟨rfl, rfl⟩
      | other => exact ⟨rfl, rfl⟩
  | mouseMove =>
      exact ⟨(input_move_cellSize env st pos).1,
        (input_move_cellSize env st pos).2.1⟩
  | tabletPress b =>
      cases b with
      | left => exact input_press_cellSize env st pos
      | other => exact ⟨rfl, rfl⟩
  | tabletRelease b =>
      cases b with
      | left => exact ⟨rfl, rfl⟩
      | other => exact ⟨rfl, rfl⟩
  | tabletMove =>
      exact ⟨(input_move_cellSize env st pos).1,
        (input_move_cellSize env st pos).2.1⟩
  | otherEvent => exact ⟨rfl, rfl⟩

/-- C9: when no docker is a `GridDockerDock` with both spacing spin boxes
present, `get_grid_settings` returns `(32, 32)`; the interceptor built at
session start stores that cell size, and no event step ever changes the
stored cell size. -/
theorem C9_grid_settings_fallback (dockers : List Docker)
    (docW docH : ℤ) (sel : Option Mask) (env : ViewEnv)
    (st : InterceptorState) (ev : QEventKind) (p : ℚ × ℚ)
    (h : ∀ d ∈ dockers, d.className ≠ "GridDockerDock" ∨
      d.hSpacing = none ∨ d.vSpacing = none) :
    get_grid_settings dockers = (32, 32) ∧
    ((mkInterceptor dockers docW docH sel).cellW = 32 ∧
      (mkInterceptor dockers docW docH sel).cellH = 32) ∧
    ((handleEvent env st ev p).1.cellW = st.cellW ∧
      (handleEvent env st ev p).1.cellH = st.cellH) := by
  have hgs := get_grid_settings_fallback dockers h
  refine ⟨hgs, ⟨?_, ?_⟩, handleEvent_cellSize env st ev p⟩
  · show (get_grid_settings dockers).1 = 32
    rw [hgs]
  · show (get_grid_settings dockers).2 = 32
    rw [hgs]

/-- A docker list with no usable grid settings: one unrelated docker and
one `GridDockerDock` whose horizontal spacing spin box is missing. -/
def dockersW : List Docker :=
  [⟨"OtherDock", some 5, some 6⟩, ⟨"GridDockerDock", none, some 7⟩]

theorem C9_grid_settings_fallback_witness :
    get_grid_settings dockersW = (32, 32) ∧
    (mkInterceptor dockersW 4 4 none).cellW = 32 ∧
    (mkInterceptor dockersW 4 4 none).cellH = 32 := by
  have h : ∀ d ∈ dockersW, d.className ≠ "GridDockerDock" ∨
      d.hSpacing = none ∨ d.vSpacing = none := by decide
  have hm := C9_grid_settings_fallback dockersW 4 4 none envId stBase
    .mouseMove (0, 0) h
  exact ⟨hm.1, hm.2.1.1, hm.2.1.2⟩

/-! ### Paint-value invariant (C10) -/

/-- C10: the toggle sentinel only ever resolves to 0 or 255, so the value
latched by a drag-starting press is 0 or 255; drag moves never change the
latched value, and every pixel a drag move writes is set to the latched
value, so drag writes are always 0 or 255, never an intermediate value. -/
theorem C10_paint_value_invariant (env : ViewEnv) (st : InterceptorState)
    (p q : ℚ × ℚ) (cell : ℤ × ℤ) (px py : ℤ)
    (hpress : pos_to_grid env st p = some cell)
    (hv : st.curCellValue = 0 ∨ st.curCellValue = 255) :
    ((set_cell st cell none).1 = 0 ∨ (set_cell st cell none).1 = 255) ∧
    ((input_press env st p).curCellValue = 0 ∨
      (input_press env st p).curCellValue = 255) ∧
    ((input_move env st q).curCellValue = 0 ∨
      (input_move env st q).curCellValue = 255) ∧
    (((input_move env st q).selection.getD Mask.empty) px py =
        (st.selection.getD Mask.empty) px py ∨
      ((input_move env st q).selection.getD Mask.empty) px py = 0 ∨
      ((input_move env st q).selection.getD Mask.empty) px py = 255) := by
  have ha : (set_cell st cell none).1 = 0 ∨ (set_cell st cell none).1 = 255 := by
    show (if (st.selection.getD Mask.empty) (cell.1 * st.cellW)
        (cell.2 * st.cellH) ≠ 0 then 0 else 255) = 0 ∨
      (if (st.selection.getD Mask.empty) (cell.1 * st.cellW)
        (cell.2 * st.cellH) ≠ 0 then 0 else 255) = 255
    split
    · exact Or.inl rfl
    · exact Or.inr rfl
  refine ⟨ha, ?_, ?_, ?_⟩
  · unfold input_press
    rw [hpress]
    exact ha
  · rw [(input_move_cellSize env st q).2.2]
    exact hv
  · rcases input_move_cases env st q with heq | ⟨c, heq⟩
    · rw [heq]
      exact Or.inl rfl
    · have hval : ((input_move env st q).selection.getD Mask.empty) px py =
          if c.1 * st.cellW ≤ px ∧ px < c.1 * st.cellW + st.cellW ∧
             c.2 * st.cellH ≤ py ∧ py < c.2 * st.cellH + st.cellH
          then st.curCellValue else (st.selection.getD Mask.empty) px py := by
        rw [heq]
        rfl
      rw [hval]
      split
      · exact Or.inr hv
      · exact Or.inl rfl

theorem C10_paint_value_invariant_witness :
    (pos_to_grid envId stDrag (-2, -2) = some (0, 0) ∧
      (stDrag.curCellValue = 0 ∨ stDrag.curCellValue = 255)) ∧
    ((input_press envId stDrag (-2, -2)).curCellValue = 0 ∨
      (input_press envId stDrag (-2, -2)).curCellValue = 255) := by
  have t1 : toDocPos envId stDrag (-2, -2) = (((0 : ℤ) : ℚ), ((0 : ℤ) : ℚ)) := by
    rw [toDocPos_envId]; norm_num [stDrag, stBase]
  have h1 : pos_to_grid envId stDrag (-2, -2) = some (0, 0) := by
    rw [pos_to_grid_eval envId stDrag _ 0 0 t1]; decide
  have hv : stDrag.curCellValue = 0 ∨ stDrag.curCellValue = 255 := Or.inr rfl
  exact ⟨⟨h1, hv⟩,
    (C10_paint_value_invariant envId stDrag (-2, -2) (0, 0) (0, 0) 0 0
      h1 hv).2.1⟩

end CellSel
